import Mathlib

/-!
Verification of the `myfind` utility (a simplified `find`): a shallow embedding of
the command-line parser, the predicate evaluator, the path joiner and the
directory-tree traversal engine, with theorems settling the specification claims.

The embedding follows `src/unnamed/part_000` (the most recent draft of `myfind.c`).
C strings are modelled as `List Char` (the program manipulates them as char
arrays); machine integers that only hold small counts are modelled as `Nat`/`Int`.
-/

/-- File-type classification of one filesystem node, as distinguished by the
`S_ISBLK`/`S_ISCHR`/`S_ISDIR`/`S_ISFIFO`/`S_ISREG`/`S_ISLNK`/`S_ISSOCK` tests on
`st_mode`. -/
inductive FKind where
  | block
  | char
  | directory
  | fifo
  | regular
  | symlink
  | socket
deriving DecidableEq, Repr

/-- The `stat`-style metadata of one node that the program consumes:
its type classification (`st_mode` class) and its owning user id (`st_uid`). -/
structure FileInfo where
  kind : FKind
  uid : Int
deriving DecidableEq, Repr

-- The bit flags of `enum FileTypes` from the source.
namespace FileTypes

/-- Flag `BlockSpecialFile = 1 << 0`. -/
def BlockSpecialFile : Nat := 1
/-- Flag `CharacterSpecialFile = 1 << 1`. -/
def CharacterSpecialFile : Nat := 2
/-- Flag `Directory = 1 << 2`. -/
def Directory : Nat := 4
/-- Flag `NamedPipe = 1 << 3`. -/
def NamedPipe : Nat := 8
/-- Flag `RegularFile = 1 << 4`. -/
def RegularFile : Nat := 16
/-- Flag `SymbolicLink = 1 << 5`. -/
def SymbolicLink : Nat := 32
/-- Flag `Socket = 1 << 6`. -/
def Socket : Nat := 64

end FileTypes

/-- Struct `Args`: the parsed command line arguments, mirroring the C struct
field for field. Pointer members that may be `NULL` only when their guard flag
is false are modelled as plain values (the flag governs their validity, as in
the source). -/
structure Args where
  searchPath : Option String
  printInExtendedFormat : Bool
  filterByFileType : Bool
  fileTypes : Nat
  filterByUserID : Bool
  userID : Int
  filterForNoUser : Bool
  filterForNamePattern : Bool
  namePattern : String
  filterForPathPattern : Bool
  pathPattern : String
deriving DecidableEq, Repr

/-- The zero-initialized `struct Args` produced by `calloc(1, sizeof(struct Args))`
in `main`: every flag false, every id zero, every pointer `NULL`. -/
def emptyArgs : Args :=
  { searchPath := none
    printInExtendedFormat := false
    filterByFileType := false
    fileTypes := 0
    filterByUserID := false
    userID := 0
    filterForNoUser := false
    filterForNamePattern := false
    namePattern := ""
    filterForPathPattern := false
    pathPattern := "" }

/-- One step of the `switch` in `ParseFileTypes`: the flag a file-type character
denotes, or `none` for an invalid character. -/
def fileTypeFlag : Char → Option Nat
  | 'b' => some FileTypes.BlockSpecialFile
  | 'c' => some FileTypes.CharacterSpecialFile
  | 'd' => some FileTypes.Directory
  | 'p' => some FileTypes.NamedPipe
  | 'f' => some FileTypes.RegularFile
  | 'l' => some FileTypes.SymbolicLink
  | 's' => some FileTypes.Socket
  | _ => none

/-- Function `ParseFileTypes`: starts from `None = 0` and ORs in the flag of each
character of the string; an invalid character makes the whole parse fail. -/
def ParseFileTypes (fileTypeChars : String) : Option Nat :=
  fileTypeChars.data.foldlM (fun acc c => (fileTypeFlag c).map (fun f => acc ||| f)) 0

/-- Modelled from the spec: `ConvertToInteger` in the source is an empty `TODO`
stub (its body is missing). Spec section 6 says the `-user` value is "numeric ID
tried first", so the conversion is modelled as parsing a (non-negative) decimal
numeral. -/
def ConvertToInteger (s : String) : Option Int :=
  if s.data ≠ [] ∧ s.data.all Char.isDigit then
    some (s.data.foldl (fun acc c => acc * 10 + ((c.toNat : Int) - ('0'.toNat : Int))) 0)
  else
    none

/-- Modelled from the spec: `QueryUserID` in the source is an empty `TODO` stub.
It would resolve an account name through the host account database, which lies
outside the program; the model used in concrete examples resolves no name.
Theorems that depend on name resolution are stated over an arbitrary resolver. -/
def QueryUserID (userName : String) : Option Int :=
  none

/-- The argument-scanning loop of `ParseCommandLineArgs`, one recursive call per
executed `i++`. `i` is the index of the argument at the head of `rest` within
the original `argv`; `conv` and `query` stand for `ConvertToInteger` and
`QueryUserID` (both are unimplemented stubs in the source, so the parser is
stated over arbitrary oracles). Returns `none` where the C code returns
`false`. -/
def parseLoop (conv query : String → Option Int) : Nat → List String → Args → Option Args
  | _, [], args => some args
  | i, a :: rest, args =>
    if a = "-print" then
      parseLoop conv query (i + 1) rest args
    else if a = "-ls" then
      parseLoop conv query (i + 1) rest { args with printInExtendedFormat := true }
    else if a = "-type" then
      match rest with
      | [] => none
      | fileTypeChars :: rest2 =>
        match ParseFileTypes fileTypeChars with
        | none => none
        | some tys =>
          parseLoop conv query (i + 2) rest2
            { args with fileTypes := tys, filterByFileType := true }
    else if a = "-user" then
      match rest with
      | [] => none
      | userNameOrID :: rest2 =>
        match conv userNameOrID with
        | some uid =>
          parseLoop conv query (i + 2) rest2
            { args with userID := uid, filterByUserID := true }
        | none =>
          match query userNameOrID with
          | some uid =>
            parseLoop conv query (i + 2) rest2
              { args with userID := uid, filterByUserID := true }
          | none => none
    else if a = "-nouser" then
      parseLoop conv query (i + 1) rest { args with filterForNoUser := true }
    else if a = "-name" then
      match rest with
      | [] => none
      | pat :: rest2 =>
        parseLoop conv query (i + 2) rest2
          { args with namePattern := pat, filterForNamePattern := true }
    else if a = "-path" then
      match rest with
      | [] => none
      | pat :: rest2 =>
        parseLoop conv query (i + 2) rest2
          { args with pathPattern := pat, filterForPathPattern := true }
    else if i = 1 then
      parseLoop conv query (i + 1) rest { args with searchPath := some a }
    else
      none

/-- Function `ParseCommandLineArgs`: scans `argv` starting at index 1 (index 0 is the
executable path) over the zero-initialized `Args`. -/
def ParseCommandLineArgs (conv query : String → Option Int) (argv : List String) : Option Args :=
  parseLoop conv query 1 (argv.drop 1) emptyArgs

/-- Function `ShouldPrintFileInformation`: decides whether a visited node is emitted.
Faithful to the source: an `else if` chain over the filter flags in which the
first active filter alone produces the verdict, the no-owner / name-pattern /
path-pattern branches are `TODO` stubs that return `false` (each is followed by
an unreachable `return true`), and with no active filter the result is `true`. -/
def ShouldPrintFileInformation (filePath : List Char) (fileInformation : FileInfo)
    (args : Args) : Bool :=
  if args.filterByFileType then
    (fileInformation.kind == FKind.block
        && (args.fileTypes &&& FileTypes.BlockSpecialFile != 0)) ||
    (fileInformation.kind == FKind.char
        && (args.fileTypes &&& FileTypes.CharacterSpecialFile != 0)) ||
    (fileInformation.kind == FKind.directory
        && (args.fileTypes &&& FileTypes.Directory != 0)) ||
    (fileInformation.kind == FKind.fifo
        && (args.fileTypes &&& FileTypes.NamedPipe != 0)) ||
    (fileInformation.kind == FKind.regular
        && (args.fileTypes &&& FileTypes.RegularFile != 0)) ||
    (fileInformation.kind == FKind.symlink
        && (args.fileTypes &&& FileTypes.SymbolicLink != 0)) ||
    (fileInformation.kind == FKind.socket
        && (args.fileTypes &&& FileTypes.Socket != 0))
  else if args.filterByUserID then
    fileInformation.uid == args.userID
  else if args.filterForNoUser then
    false
  else if args.filterForNamePattern then
    false
  else if args.filterForPathPattern then
    false
  else
    true

/-- Modelled from the spec: shell-glob matching (spec section 4.2), which the
finished program would obtain from `fnmatch` — absent from the source. `*`
matches any run of characters including none, `?` matches exactly one
character, anything else matches itself; the whole string must be consumed. -/
def globMatch : List Char → List Char → Bool
  | [], [] => true
  | [], _ :: _ => false
  | '*' :: ps, [] => globMatch ps []
  | '*' :: ps, c :: cs => globMatch ps (c :: cs) || globMatch ('*' :: ps) cs
  | '?' :: _, [] => false
  | '?' :: ps, _ :: cs => globMatch ps cs
  | _ :: _, [] => false
  | p :: ps, c :: cs => p == c && globMatch ps cs
termination_by p s => (p.length, s.length)

/-- Modelled from the spec: the predicate of spec section 4.2 — the conjunction
of every active filter, an inactive filter being vacuously true. `resolvable`
is the host account database (whether a user id resolves to an account name),
`name` the entry's base name and `path` its full path. This is the spec-side
reference predicate against which `ShouldPrintFileInformation` is compared. -/
def matchesSpec (resolvable : Int → Bool) (path name : List Char) (fi : FileInfo)
    (args : Args) : Bool :=
  (!args.filterByFileType ||
    ((fi.kind == FKind.block && (args.fileTypes &&& FileTypes.BlockSpecialFile != 0)) ||
     (fi.kind == FKind.char && (args.fileTypes &&& FileTypes.CharacterSpecialFile != 0)) ||
     (fi.kind == FKind.directory && (args.fileTypes &&& FileTypes.Directory != 0)) ||
     (fi.kind == FKind.fifo && (args.fileTypes &&& FileTypes.NamedPipe != 0)) ||
     (fi.kind == FKind.regular && (args.fileTypes &&& FileTypes.RegularFile != 0)) ||
     (fi.kind == FKind.symlink && (args.fileTypes &&& FileTypes.SymbolicLink != 0)) ||
     (fi.kind == FKind.socket && (args.fileTypes &&& FileTypes.Socket != 0))))
  && (!args.filterByUserID || fi.uid == args.userID)
  && (!args.filterForNoUser || !resolvable fi.uid)
  && (!args.filterForNamePattern || globMatch args.namePattern.data name)
  && (!args.filterForPathPattern || globMatch args.pathPattern.data path)

/-- Function `CombinePath`: joins two paths, normalizing the junction separator exactly
as the source does — trims the trailing slash of the first operand when both
operands carry a slash at the junction, inserts a slash when neither does. -/
def CombinePath (path1 path2 : List Char) : List Char :=
  if (path1.length == 0) && (path2.length == 0) then
    []
  else if path1.length == 0 then
    path2
  else if path2.length == 0 then
    path1
  else
    let path1HasTrailingSlash := decide (0 < path1.length) && (path1.getLast? == some '/')
    let path2HasLeadingSlash := decide (0 < path2.length) && (path2.head? == some '/')
    if path1HasTrailingSlash && path2HasLeadingSlash then
      path1.dropLast ++ path2
    else if path1HasTrailingSlash || path2HasLeadingSlash then
      path1 ++ path2
    else
      path1 ++ '/' :: path2

/-- One observable action of the traversal engine: a diagnostic on the error
channel (`lstatErr`, `openErr`, `readErr`, `closeErr`), a successful
resource-handling step (`lstatOk`, `openOk`, `closeOk`), or an emitted match
(`print`, for `PrintFileInformation`). Each event carries the path it
concerns. -/
inductive Event where
  | lstatOk (path : List Char)
  | lstatErr (path : List Char)
  | print (path : List Char)
  | openOk (path : List Char)
  | openErr (path : List Char)
  | readErr (path : List Char)
  | closeOk (path : List Char)
  | closeErr (path : List Char)
deriving DecidableEq, Repr

/-- The filesystem as observed by one run of the walk.
`err` is a node whose `lstat` fails. `node kind uid openOk readFail closeOk
children` is a node whose `lstat` succeeds with the given metadata; when the
engine treats it as a directory, `openOk` tells whether `opendir` succeeds,
`children` are the entries the directory stream yields (in stream order, `.`
and `..` possibly included), `readFail` tells whether the stream ends in a read
error rather than a natural end, and `closeOk` whether `closedir` succeeds. -/
inductive FSTree where
  | err
  | node (kind : FKind) (uid : Int) (openOk : Bool) (readFail : Bool) (closeOk : Bool)
      (children : List (List Char × FSTree))

mutual

/-- Function `SearchFile`: `lstat` the node (diagnostic and return on failure), emit the
record if `ShouldPrintFileInformation` accepts it, and continue into
`SearchDirectory` exactly when the node's own metadata classifies it as a
directory. The result is the trace of observable events. -/
def SearchFile (args : Args) (filePath : List Char) : FSTree → List Event
  | .err => [.lstatErr filePath]
  | .node kind uid openOk readFail closeOk children =>
    .lstatOk filePath ::
      ((if ShouldPrintFileInformation filePath { kind := kind, uid := uid } args then
          [.print filePath]
        else []) ++
        (if kind == FKind.directory then
          SearchDirectory args filePath openOk readFail closeOk children
        else []))
termination_by t => (sizeOf t, 2)

/-- Function `SearchDirectory`: open the stream (diagnostic and return on failure),
drain it into the pending listing — a mid-stream read failure is reported and
ends the collection, keeping the names already collected — then close the
stream. A close failure is reported and the function returns; on a successful
close the collected children are visited in order. -/
def SearchDirectory (args : Args) (directoryPath : List Char)
    (openOk readFail closeOk : Bool) (children : List (List Char × FSTree)) : List Event :=
  if openOk = false then
    [.openErr directoryPath]
  else
    .openOk directoryPath ::
      ((if readFail then [.readErr directoryPath] else []) ++
        (if closeOk = false then
          [.closeErr directoryPath]
        else
          .closeOk directoryPath :: SearchChildren args directoryPath children))
termination_by (sizeOf children, 1)

/-- The iteration over the collected listing at the end of `SearchDirectory`:
each name other than the `.` and `..` pseudo-entries (which the collection
loop skipped) is joined to the directory path with `CombinePath` and visited
with `SearchFile`. -/
def SearchChildren (args : Args) (directoryPath : List Char) :
    List (List Char × FSTree) → List Event
  | [] => []
  | (name, child) :: rest =>
    (if name == ['.'] || name == ['.', '.'] then []
     else SearchFile args (CombinePath directoryPath name) child) ++
      SearchChildren args directoryPath rest
termination_by l => (sizeOf l, 0)

end

/-- The names the collection loop of `SearchDirectory` stores in its linked
list: the stream's yield with the `.` and `..` pseudo-entries skipped. -/
def collectedNames (children : List (List Char × FSTree)) : List (List Char) :=
  (children.filter (fun e => !(e.1 == ['.'] || e.1 == ['.', '.']))).map Prod.fst

/-- The effect of one event on the number of open directory handles. -/
def handleDelta : Event → Int
  | .openOk _ => 1
  | .closeOk _ => -1
  | .closeErr _ => -1
  | _ => 0

/-- Net change in open directory handles over a trace. -/
def netHandles : List Event → Int
  | [] => 0
  | e :: es => handleDelta e + netHandles es

/-- The largest number of simultaneously open directory handles reached along
a trace: the maximum of `netHandles` over all prefixes of the trace. -/
def peakHandles : List Event → Int
  | [] => 0
  | e :: es => max 0 (handleDelta e + peakHandles es)

/-- The path an event concerns. -/
def pathOf : Event → List Char
  | .lstatOk p => p
  | .lstatErr p => p
  | .print p => p
  | .openOk p => p
  | .openErr p => p
  | .readErr p => p
  | .closeOk p => p
  | .closeErr p => p

/-- Whether an event is the inspection (`lstat` attempt) of a node. -/
def isVisit : Event → Bool
  | .lstatOk _ => true
  | .lstatErr _ => true
  | _ => false

/-- The nodes a trace inspects, in visit order. -/
def visitedPaths (events : List Event) : List (List Char) :=
  (events.filter isVisit).map pathOf

/-- Whether an event is an attempt to enumerate a directory (`opendir`). -/
def isOpenEvent : Event → Bool
  | .openOk _ => true
  | .openErr _ => true
  | _ => false

mutual

/-- The nodes the walk inspects, computed from the tree alone: the node itself,
then — exactly when the node is a directory whose stream opens and closes
successfully — the collected children. Used to state that the filter
configuration controls printing but never walking. -/
def walkPaths : List Char → FSTree → List (List Char)
  | filePath, .err => [filePath]
  | filePath, .node kind _ openOk _ closeOk children =>
    filePath ::
      (if kind == FKind.directory && openOk && closeOk then
        walkChildren filePath children
      else [])
termination_by _ t => (sizeOf t, 1)

/-- Children part of `walkPaths`. -/
def walkChildren : List Char → List (List Char × FSTree) → List (List Char)
  | _, [] => []
  | directoryPath, (name, child) :: rest =>
    (if name == ['.'] || name == ['.', '.'] then []
     else walkPaths (CombinePath directoryPath name) child) ++
      walkChildren directoryPath rest
termination_by _ l => (sizeOf l, 0)

end

theorem netHandles_append (a b : List Event) :
    netHandles (a ++ b) = netHandles a + netHandles b := by
  induction a with
  | nil => simp [netHandles]
  | cons e es ih =>
    rw [List.cons_append]
    simp only [netHandles]
    rw [ih]
    ring

theorem peakHandles_nonneg (l : List Event) : 0 ≤ peakHandles l := by
  cases l with
  | nil => simp [peakHandles]
  | cons e es => exact le_max_left 0 _

theorem peakHandles_append (a b : List Event) :
    peakHandles (a ++ b) = max (peakHandles a) (netHandles a + peakHandles b) := by
  induction a with
  | nil =>
    simp [peakHandles, netHandles, max_eq_right (peakHandles_nonneg b)]
  | cons e es ih =>
    rw [List.cons_append]
    simp only [peakHandles, netHandles]
    rw [ih]
    omega

theorem netHandles_take_le_peakHandles (pre suf : List Event) :
    netHandles pre ≤ peakHandles (pre ++ suf) := by
  induction pre with
  | nil => simpa [netHandles] using peakHandles_nonneg suf
  | cons e es ih =>
    simp only [List.cons_append, netHandles, peakHandles]
    exact le_trans (by omega) (le_max_right 0 (handleDelta e + peakHandles (es ++ suf)))

mutual

theorem searchFile_handles (args : Args) (filePath : List Char) :
    ∀ t : FSTree, netHandles (SearchFile args filePath t) = 0 ∧
      peakHandles (SearchFile args filePath t) ≤ 1
  | .err => by
    simp [SearchFile, netHandles, peakHandles, handleDelta]
  | .node kind uid openOk readFail closeOk children => by
    rcases searchDirectory_handles args filePath openOk readFail closeOk children with ⟨h1, h2⟩
    simp only [SearchFile, netHandles, handleDelta, netHandles_append, peakHandles,
      peakHandles_append]
    constructor
    · split <;> split <;> simp_all [netHandles, peakHandles, handleDelta]
    · split <;> split <;> simp_all [netHandles, peakHandles, handleDelta]
termination_by t => (sizeOf t, 3)

theorem searchDirectory_handles (args : Args) (directoryPath : List Char)
    (openOk readFail closeOk : Bool) (children : List (List Char × FSTree)) :
    netHandles (SearchDirectory args directoryPath openOk readFail closeOk children) = 0 ∧
      peakHandles (SearchDirectory args directoryPath openOk readFail closeOk children) ≤ 1 := by
  rcases searchChildren_handles args directoryPath children with ⟨h1, h2⟩
  simp only [SearchDirectory]
  split
  · simp [netHandles, peakHandles, handleDelta]
  · simp only [netHandles, handleDelta, netHandles_append, peakHandles, peakHandles_append]
    constructor
    · split <;> split <;> simp_all [netHandles, peakHandles, handleDelta]
    · split <;> split <;> simp_all [netHandles, peakHandles, handleDelta]
termination_by (sizeOf children, 2)

theorem searchChildren_handles (args : Args) (directoryPath : List Char) :
    ∀ l : List (List Char × FSTree),
      netHandles (SearchChildren args directoryPath l) = 0 ∧
        peakHandles (SearchChildren args directoryPath l) ≤ 1
  | [] => by simp [SearchChildren, netHandles, peakHandles]
  | (name, child) :: rest => by
    rcases searchFile_handles args (CombinePath directoryPath name) child with ⟨h1, h2⟩
    rcases searchChildren_handles args directoryPath rest with ⟨h3, h4⟩
    simp only [SearchChildren, netHandles_append, peakHandles_append]
    constructor
    · split <;> simp_all [netHandles, peakHandles]
    · split <;> simp_all [netHandles, peakHandles]
termination_by l => (sizeOf l, 0)

end

@[simp]
theorem visitedPaths_nil : visitedPaths [] = [] := rfl

@[simp]
theorem visitedPaths_cons (e : Event) (es : List Event) :
    visitedPaths (e :: es) = (if isVisit e then [pathOf e] else []) ++ visitedPaths es := by
  simp only [visitedPaths, List.filter_cons]
  split <;> simp_all

@[simp]
theorem visitedPaths_append (a b : List Event) :
    visitedPaths (a ++ b) = visitedPaths a ++ visitedPaths b := by
  simp [visitedPaths, List.filter_append]

mutual

theorem visited_searchFile (args : Args) (filePath : List Char) :
    ∀ t : FSTree, visitedPaths (SearchFile args filePath t) = walkPaths filePath t
  | .err => by
    simp [SearchFile, walkPaths, isVisit, pathOf]
  | .node kind uid openOk readFail closeOk children => by
    have hd := visited_searchDirectory args filePath openOk readFail closeOk children
    simp only [SearchFile, walkPaths, visitedPaths_cons, visitedPaths_append, isVisit, pathOf,
      apply_ite visitedPaths, visitedPaths_nil, hd]
    rcases h : kind == FKind.directory with _ | _
    · split <;> simp_all
    · rcases ho : openOk with _ | _ <;> rcases hc : closeOk with _ | _ <;>
        split <;> simp_all
termination_by t => (sizeOf t, 3)

theorem visited_searchDirectory (args : Args) (directoryPath : List Char)
    (openOk readFail closeOk : Bool) (children : List (List Char × FSTree)) :
    visitedPaths (SearchDirectory args directoryPath openOk readFail closeOk children) =
      if openOk && closeOk then walkChildren directoryPath children else [] := by
  have hc := visited_searchChildren args directoryPath children
  simp only [SearchDirectory]
  rcases openOk with _ | _
  · simp [isVisit, pathOf]
  · rcases closeOk with _ | _ <;>
      simp [isVisit, pathOf, apply_ite visitedPaths, hc]
termination_by (sizeOf children, 2)

theorem visited_searchChildren (args : Args) (directoryPath : List Char) :
    ∀ l : List (List Char × FSTree),
      visitedPaths (SearchChildren args directoryPath l) = walkChildren directoryPath l
  | [] => by simp [SearchChildren, walkChildren]
  | (name, child) :: rest => by
    have h1 := visited_searchFile args (CombinePath directoryPath name) child
    have h2 := visited_searchChildren args directoryPath rest
    simp only [SearchChildren, walkChildren, visitedPaths_append, h2]
    split
    · simp
    · rw [h1]
termination_by l => (sizeOf l, 0)

end

theorem searchChildren_append (args : Args) (directoryPath : List Char)
    (l1 l2 : List (List Char × FSTree)) :
    SearchChildren args directoryPath (l1 ++ l2) =
      SearchChildren args directoryPath l1 ++ SearchChildren args directoryPath l2 := by
  induction l1 with
  | nil => simp [SearchChildren]
  | cons e rest ih =>
    obtain ⟨name, child⟩ := e
    rw [List.cons_append]
    simp only [SearchChildren, ih, List.append_assoc]

/-- C8: the path joiner `CombinePath` satisfies the identity laws on empty
operands, the junction equations `join("a/", "/b") = join("a", "b") =
join("a/", "b") = "a/b"`, and in general — for non-empty operands whose only
junction separators are the ones shown — produces exactly one separator at the
junction, leaving both operands otherwise intact. -/
theorem combinePath_spec (p1 p2 : List Char) (h1 : p1 ≠ []) (h2 : p2 ≠ [])
    (h3 : p1.getLast? ≠ some '/') (h4 : p2.head? ≠ some '/') :
    (CombinePath [] [] = [])
    ∧ (∀ x : List Char, CombinePath [] x = x)
    ∧ (∀ x : List Char, CombinePath x [] = x)
    ∧ (CombinePath ['a', '/'] ['/', 'b'] = ['a', '/', 'b'])
    ∧ (CombinePath ['a'] ['b'] = ['a', '/', 'b'])
    ∧ (CombinePath ['a', '/'] ['b'] = ['a', '/', 'b'])
    ∧ (CombinePath ['a'] ['/', 'b'] = ['a', '/', 'b'])
    ∧ (CombinePath (p1 ++ ['/']) ('/' :: p2) = p1 ++ '/' :: p2)
    ∧ (CombinePath p1 p2 = p1 ++ '/' :: p2)
    ∧ (CombinePath (p1 ++ ['/']) p2 = p1 ++ '/' :: p2)
    ∧ (CombinePath p1 ('/' :: p2) = p1 ++ '/' :: p2) := by
  have hl1 : p1.length ≠ 0 := by simpa [List.length_eq_zero] using h1
  have hl2 : p2.length ≠ 0 := by simpa [List.length_eq_zero] using h2
  refine ⟨by decide, ?_, ?_, by decide, by decide, by decide, by decide, ?_, ?_, ?_, ?_⟩
  · intro x
    cases x <;> simp [CombinePath]
  · intro x
    cases x <;> simp [CombinePath]
  · simp [CombinePath, List.getLast?_concat, List.dropLast_concat, Nat.pos_iff_ne_zero]
  · simp [CombinePath, hl1, hl2, h3, h4]
  · simp [CombinePath, hl2, List.getLast?_concat, List.dropLast_concat, h4, Nat.pos_iff_ne_zero]
  · simp [CombinePath, hl1, h3]

/-- Witness for C8: the junction law of `combinePath_spec` applied at the
concrete operands `"a"` and `"b"`. -/
theorem combinePath_spec_witness :
    CombinePath (['a'] ++ ['/']) ('/' :: ['b']) = ['a'] ++ '/' :: ['b'] :=
  (combinePath_spec ['a'] ['b'] (by decide) (by decide) (by decide)
    (by decide)).2.2.2.2.2.2.2.1

/-- C1: refuted on the code. `ShouldPrintFileInformation` is an `else if`
chain, not the conjunction of the active filters: with both the type filter
(`-type f`) and the owner-ID filter (`-user 42`) active, a regular file owned
by uid 7 satisfies the type branch alone and is accepted for printing, even
though the active owner-ID filter is violated — the spec-side conjunctive
predicate `matchesSpec` rejects the same entry. -/
theorem shouldPrint_first_active_filter_wins :
    ShouldPrintFileInformation ['f'] { kind := FKind.regular, uid := 7 }
        { emptyArgs with
            filterByFileType := true, fileTypes := FileTypes.RegularFile,
            filterByUserID := true, userID := 42 } = true
    ∧ matchesSpec (fun _ => true) ['f'] ['f'] { kind := FKind.regular, uid := 7 }
        { emptyArgs with
            filterByFileType := true, fileTypes := FileTypes.RegularFile,
            filterByUserID := true, userID := 42 } = false := by
  constructor <;> rfl

/-- C4: refuted on the code. The name-glob branch of
`ShouldPrintFileInformation` is a `TODO` stub: whenever the name filter is the
first active filter the evaluator returns `false` for every entry and every
pattern — although, for instance, the glob `*` matches the base name `a`, so
the spec-side predicate accepts that entry. -/
theorem shouldPrint_name_filter_stub :
    (∀ (filePath : List Char) (fi : FileInfo) (pat : String),
        ShouldPrintFileInformation filePath fi
          { emptyArgs with filterForNamePattern := true, namePattern := pat } = false)
    ∧ globMatch ['*'] ['a'] = true
    ∧ matchesSpec (fun _ => true) ['a'] ['a'] { kind := FKind.regular, uid := 0 }
        { emptyArgs with filterForNamePattern := true, namePattern := "*" } = true := by
  refine ⟨?_, ?_, ?_⟩
  · intro filePath fi pat
    simp [ShouldPrintFileInformation, emptyArgs]
  · simp [globMatch]
  · have hp : ("*" : String).data = ['*'] := rfl
    simp [matchesSpec, emptyArgs, hp, globMatch]

/-- C9: with no active filter (all five filter flags false, the remaining
configuration fields arbitrary), `ShouldPrintFileInformation` accepts every
entry, so every visited entry is emitted. -/
theorem shouldPrint_vacuously_true (sp : Option String) (ext : Bool) (ft : Nat)
    (uid : Int) (np pp : String) (filePath : List Char) (fi : FileInfo) :
    ShouldPrintFileInformation filePath fi
      { searchPath := sp, printInExtendedFormat := ext, filterByFileType := false,
        fileTypes := ft, filterByUserID := false, userID := uid, filterForNoUser := false,
        filterForNamePattern := false, namePattern := np, filterForPathPattern := false,
        pathPattern := pp } = true := by
  simp [ShouldPrintFileInformation]

/-- Counterexample for C2: the command line `myfind -user 42 -nouser`
activates both the owner-ID filter and the no-owner filter, yet
`ParseCommandLineArgs` succeeds (no configuration error is reported), with
both filter flags recorded. -/
theorem parse_user_nouser_not_rejected :
    (ParseCommandLineArgs ConvertToInteger QueryUserID
        ["myfind", "-user", "42", "-nouser"]).map
      (fun a => (a.filterByUserID, a.filterForNoUser, a.userID)) =
      some (true, true, 42) := by
  rfl

/-- C2 (amended): configuration construction accepts a command line that
activates both the owner-ID filter (`-user`) and the no-owner filter
(`-nouser`): whenever the `-user` value converts to a numeric ID, parsing
succeeds and records both filters; no configuration error is reported and
traversal proceeds. -/
theorem parse_accepts_user_with_nouser (conv query : String → Option Int)
    (uidStr : String) (uid : Int) (h : conv uidStr = some uid) :
    ParseCommandLineArgs conv query ["myfind", "-user", uidStr, "-nouser"] =
      some { emptyArgs with
              userID := uid, filterByUserID := true, filterForNoUser := true } := by
  simp [ParseCommandLineArgs, parseLoop, h]

/-- Witness for C2's amended theorem at the concrete command line
`myfind -user 42 -nouser`, with the spec-modelled numeric conversion. -/
theorem parse_accepts_user_with_nouser_witness :
    ParseCommandLineArgs ConvertToInteger QueryUserID
        ["myfind", "-user", "42", "-nouser"] =
      some { emptyArgs with
              userID := 42, filterByUserID := true, filterForNoUser := true } :=
  parse_accepts_user_with_nouser ConvertToInteger QueryUserID "42" 42 (by rfl)

/-- C10: a token that is none of the recognized actions is accepted only at
argument position 1, where it is recorded as the search path; at any other
position the scan fails with a configuration error. In particular
`myfind -print /tmp` is rejected while `myfind /tmp -print` succeeds with
search path `/tmp`. -/
theorem parse_search_path_only_at_position_one (conv query : String → Option Int)
    (a : String) (i : Nat) (rest : List String) (args : Args)
    (h : a ∉ ["-print", "-ls", "-type", "-user", "-nouser", "-name", "-path"]) :
    (i ≠ 1 → parseLoop conv query i (a :: rest) args = none)
    ∧ (parseLoop conv query 1 (a :: rest) args =
        parseLoop conv query 2 rest { args with searchPath := some a })
    ∧ ParseCommandLineArgs conv query ["myfind", "-print", "/tmp"] = none
    ∧ ParseCommandLineArgs conv query ["myfind", "/tmp", "-print"] =
        some { emptyArgs with searchPath := some "/tmp" } := by
  simp only [List.mem_cons, List.mem_singleton, not_or] at h
  obtain ⟨h1, h2, h3, h4, h5, h6, h7, _⟩ := h
  refine ⟨?_, ?_, ?_, ?_⟩
  · intro hi
    rw [parseLoop.eq_def]
    simp [h1, h2, h3, h4, h5, h6, h7, hi]
  · rw [parseLoop.eq_def]
    simp [h1, h2, h3, h4, h5, h6, h7]
  · rfl
  · rfl

/-- Witness for C10: the non-action token `/tmp` at position 2 makes the scan
fail. -/
theorem parse_search_path_only_at_position_one_witness :
    parseLoop ConvertToInteger QueryUserID 2 ["/tmp"] emptyArgs = none :=
  (parse_search_path_only_at_position_one ConvertToInteger QueryUserID "/tmp" 2 []
    emptyArgs (by decide)).1 (by decide)

/-- C5: the engine holds at most one directory handle open at any time,
regardless of tree depth or breadth: along every prefix of the event trace of
a walk the number of opened but not yet closed directory streams never exceeds
one, and the complete trace closes every handle it opens. -/
theorem search_single_open_handle (args : Args) (filePath : List Char) (t : FSTree)
    (pre suf : List Event) (h : SearchFile args filePath t = pre ++ suf) :
    netHandles pre ≤ 1 ∧ netHandles (SearchFile args filePath t) = 0 := by
  rcases searchFile_handles args filePath t with ⟨h0, h1⟩
  refine ⟨?_, h0⟩
  have h2 := netHandles_take_le_peakHandles pre suf
  rw [← h] at h2
  omega

/-- Witness for C5 at a concrete walk and a concrete prefix decomposition of
its trace. -/
theorem search_single_open_handle_witness :
    netHandles [] ≤ 1 ∧ netHandles (SearchFile emptyArgs ['r'] FSTree.err) = 0 :=
  search_single_open_handle emptyArgs ['r'] FSTree.err [] [Event.lstatErr ['r']]
    (by simp [SearchFile])

/-- C6: what is walked is independent of the filter configuration — the nodes
`SearchFile` inspects are exactly `walkPaths`, a function of the tree alone,
so a non-matching directory is still descended into; a directory-stream open
is attempted for a node iff its own (`lstat`, non-dereferencing) metadata
classifies it as a directory; and a symbolic link — even one with children
attached in the tree, i.e. one whose target is a directory — is never
descended into: only the link itself is visited. -/
theorem search_descends_iff_directory (args : Args) (filePath : List Char) (t : FSTree)
    (kind : FKind) (uid : Int) (op rf cl : Bool) (ch : List (List Char × FSTree)) :
    visitedPaths (SearchFile args filePath t) = walkPaths filePath t
    ∧ ((∃ e ∈ SearchFile args filePath (FSTree.node kind uid op rf cl ch),
          isOpenEvent e = true) ↔ kind = FKind.directory)
    ∧ visitedPaths (SearchFile args filePath (FSTree.node FKind.symlink uid op rf cl ch)) =
        [filePath] := by
  refine ⟨visited_searchFile args filePath t, ?_, ?_⟩
  · constructor
    · rintro ⟨e, he, hopen⟩
      by_contra hk
      have hkb : (kind == FKind.directory) = false := by
        simpa using hk
      simp only [SearchFile, hkb, Bool.false_eq_true, if_false, List.append_nil] at he
      split at he
      · rcases (show e = Event.lstatOk filePath ∨ e = Event.print filePath by
            simpa using he) with rfl | rfl <;>
          simp [isOpenEvent] at hopen
      · rcases (show e = Event.lstatOk filePath by simpa using he) with rfl
        simp [isOpenEvent] at hopen
    · rintro rfl
      rcases op with _ | _
      · exact ⟨Event.openErr filePath, by simp [SearchFile, SearchDirectory],
          by simp [isOpenEvent]⟩
      · exact ⟨Event.openOk filePath, by simp [SearchFile, SearchDirectory],
          by simp [isOpenEvent]⟩
  · rw [visited_searchFile]
    simp [walkPaths]

/-- C7: an `lstat` failure on a node is fully local: the node contributes
exactly one diagnostic naming its path, no predicate evaluation and no match,
none of its children are visited, and the siblings before and after it in the
parent's collected listing produce exactly the traces they would produce
anyway; a failing root yields the single diagnostic as the whole walk. -/
theorem lstat_failure_isolated (args : Args) (dp name : List Char)
    (pre post : List (List Char × FSTree)) :
    SearchChildren args dp (pre ++ (name, FSTree.err) :: post) =
      SearchChildren args dp pre
        ++ (if name == ['.'] || name == ['.', '.'] then []
            else [Event.lstatErr (CombinePath dp name)])
        ++ SearchChildren args dp post
    ∧ SearchFile args dp FSTree.err = [Event.lstatErr dp] := by
  constructor
  · rw [searchChildren_append]
    simp [SearchChildren, SearchFile]
  · simp [SearchFile]

/-- Counterexample for C3: a directory `d` whose stream yields one child `f`
(so the collected listing is `[f]`) but whose `closedir` fails. The engine
reports the close diagnostic and returns — the collected child is never
visited, refuting the claim that processing of collected names proceeds. -/
theorem close_failure_counterexample :
    SearchFile emptyArgs ['d']
        (FSTree.node FKind.directory 0 true false false
          [(['f'], FSTree.node FKind.regular 0 true false true [])]) =
      [Event.lstatOk ['d'], Event.print ['d'], Event.openOk ['d'], Event.closeErr ['d']]
    ∧ collectedNames [(['f'], FSTree.node FKind.regular 0 true false true [])] = [['f']]
    ∧ visitedPaths (SearchFile emptyArgs ['d']
        (FSTree.node FKind.directory 0 true false false
          [(['f'], FSTree.node FKind.regular 0 true false true [])])) = [['d']] := by
  have h1 : SearchFile emptyArgs ['d']
      (FSTree.node FKind.directory 0 true false false
        [(['f'], FSTree.node FKind.regular 0 true false true [])]) =
      [Event.lstatOk ['d'], Event.print ['d'], Event.openOk ['d'], Event.closeErr ['d']] := by
    simp [SearchFile, SearchDirectory, ShouldPrintFileInformation, emptyArgs]
  refine ⟨h1, by decide, ?_⟩
  rw [h1]
  decide

/-- C3 (amended): when `closedir` fails after the directory's listing has been
collected, the engine reports the close-failure diagnostic and returns
immediately — the already-collected child names are not visited, and the
directory visit contributes only its own node to the visited paths. -/
theorem close_failure_aborts_children (args : Args) (dp : List Char) (uid : Int)
    (rf : Bool) (ch : List (List Char × FSTree)) :
    SearchFile args dp (FSTree.node FKind.directory uid true rf false ch) =
      Event.lstatOk dp ::
        ((if ShouldPrintFileInformation dp { kind := FKind.directory, uid := uid } args then
            [Event.print dp]
          else []) ++
          Event.openOk dp :: ((if rf then [Event.readErr dp] else []) ++ [Event.closeErr dp]))
    ∧ visitedPaths (SearchFile args dp (FSTree.node FKind.directory uid true rf false ch)) =
        [dp] := by
  constructor
  · simp [SearchFile, SearchDirectory]
  · rw [visited_searchFile]
    simp [walkPaths]
